import Mathlib

/-!
Verification of the session/job orchestration core of the Stereo-to-Spatial
server: the in-memory session registry (services/session-store), the IRCAM
bearer-token lifecycle and job poll loop (services/ircam), the /api/spatialize
route handler and the TTL cleanup sweep.  JavaScript Map state is embedded as
an insertion-ordered association list; timestamps are milliseconds as Nat;
thrown exceptions are Except/explicit outcome values; the network and the
filesystem are oracles passed in as explicit parameters.
-/

namespace StereoToSpatial

/-- Session record stored by SessionStore: fileId and iasUrl are set at upload
time, zipPath/zipSize optionally once an archive is built. -/
structure SessionData where
  fileId : String
  iasUrl : String
  zipPath : Option String := none
  zipSize : Option Nat := none
deriving Repr, DecidableEq

/-- The JS Map backing SessionStore, as an insertion-ordered association list:
Map.set on a fresh key appends, on an existing key replaces in place. -/
abbrev SessionMap := List (String × SessionData)

/-- Map.prototype.get: the value at the first entry carrying the key. -/
def mapGet : SessionMap → String → Option SessionData
  | [], _ => none
  | e :: rest, k => if e.1 = k then some e.2 else mapGet rest k

/-- Map.prototype.has. -/
def mapHasKey : SessionMap → String → Bool
  | [], _ => false
  | e :: rest, k => e.1 = k || mapHasKey rest k

/-- Replace the entry carrying the key in place, keeping its position. -/
def replaceEntry : SessionMap → String → SessionData → SessionMap
  | [], _, _ => []
  | e :: rest, k, v => if e.1 = k then (k, v) :: rest else e :: replaceEntry rest k v

/-- Map.prototype.set: replace in place when the key exists (keeping its
insertion position), otherwise append at the end. -/
def mapSet (m : SessionMap) (k : String) (v : SessionData) : SessionMap :=
  if mapHasKey m k then replaceEntry m k v else m ++ [(k, v)]

/-- Map.prototype.delete: drop the entries carrying the key. -/
def mapDelete : SessionMap → String → SessionMap
  | [], _ => []
  | e :: rest, k => if e.1 = k then mapDelete rest k else e :: mapDelete rest k

/-- SessionStore.saveSession: this.sessions.set(sessionId, data). -/
def saveSession (m : SessionMap) (sessionId : String) (data : SessionData) : SessionMap :=
  mapSet m sessionId data

/-- A Partial of the session record: each field optionally present. -/
structure SessionPatch where
  fileId : Option String := none
  iasUrl : Option String := none
  zipPath : Option String := none
  zipSize : Option Nat := none
deriving Repr, DecidableEq

/-- The object spread { ...currentData, ...data }: a field provided by the
patch wins, otherwise the current value is kept. -/
def mergePatch (cur : SessionData) (p : SessionPatch) : SessionData where
  fileId := p.fileId.getD cur.fileId
  iasUrl := p.iasUrl.getD cur.iasUrl
  zipPath := p.zipPath.or cur.zipPath
  zipSize := p.zipSize.or cur.zipSize

/-- SessionStore.updateSession: merge the patch over the current record when
the id is present, silently do nothing (log only) when it is absent. -/
def updateSession (m : SessionMap) (sessionId : String) (p : SessionPatch) : SessionMap :=
  match mapGet m sessionId with
  | some cur => mapSet m sessionId (mergePatch cur p)
  | none => m

/-- SessionStore.getSession. -/
def getSession (m : SessionMap) (sessionId : String) : Option SessionData :=
  mapGet m sessionId

/-- SessionStore.removeSession: this.sessions.delete(sessionId); a total
function, so eviction never errors. -/
def removeSession (m : SessionMap) (sessionId : String) : SessionMap :=
  mapDelete m sessionId

/-- SessionStore.getLatestSession: entries[entries.length - 1] of the Map
iteration (insertion) order, null on an empty registry. -/
def getLatestSession (m : SessionMap) : Option (String × SessionData) :=
  m.getLast?

/-- Modelled from the spec: the registry operation the spec describes for
latest(), returning the key with the greatest lastTouchedAt among the given
per-session last-touch times (first maximum on ties). -/
def latestByLastTouched (touched : List (String × Nat)) : Option String :=
  (touched.foldl
    (fun acc e =>
      match acc with
      | none => some e
      | some a => if e.2 > a.2 then some e else acc)
    none).map (fun e => e.1)

/-! Credential cache: the module-level ircamToken / tokenExpiry pair of
services/ircam, with Date.now() passed in explicitly. -/

/-- The two module-level mutable variables of services/ircam. -/
structure TokenState where
  ircamToken : Option String
  tokenExpiry : Option Nat
deriving Repr, DecidableEq

/-- 30 * 60 * 1000 milliseconds: the fixed validity window refreshIrcamToken
assigns, independent of anything the server declares. -/
def tokenValidityWindow : Nat := 30 * 60 * 1000

/-- The OAuth response body: the code reads only id_token; a server-declared
expiry, if any, is ignored. -/
structure AuthResponse where
  idToken : String
  serverDeclaredExpiry : Option Nat := none
deriving Repr, DecidableEq

/-- refreshIrcamToken: on a successful POST, store the id_token and set
tokenExpiry to Date.now() + 30 minutes; on a failed POST, rethrow. The
network outcome is the resp oracle. -/
def refreshIrcamToken (_st : TokenState) (now : Nat) (resp : Option AuthResponse) :
    Except String (TokenState × String) :=
  match resp with
  | none => Except.error "Token refresh failed"
  | some r =>
      Except.ok
        ({ ircamToken := some r.idToken, tokenExpiry := some (now + tokenValidityWindow) },
         r.idToken)

/-- getIrcamToken: null unless a token and expiry are set and now < expiry. -/
def getIrcamToken (st : TokenState) (now : Nat) : Option String :=
  match st.ircamToken, st.tokenExpiry with
  | some tok, some exp => if now ≥ exp then none else some tok
  | _, _ => none

/-- ensureValidToken: return the cached token when valid, otherwise refresh
and return getIrcamToken on the refreshed state. -/
def ensureValidToken (st : TokenState) (now : Nat) (resp : Option AuthResponse) :
    Except String (TokenState × Option String) :=
  match getIrcamToken st now with
  | some _ => Except.ok (st, getIrcamToken st now)
  | none =>
      match refreshIrcamToken st now resp with
      | Except.error e => Except.error e
      | Except.ok (st2, _) => Except.ok (st2, getIrcamToken st2 now)

/-- Reachability invariant of the token state as of time now: the expiry, when
set, was written by a refresh at some past instant t0 as t0 + the window. -/
def TokenWF (st : TokenState) (now : Nat) : Prop :=
  st.tokenExpiry = none ∨ ∃ t0, t0 ≤ now ∧ st.tokenExpiry = some (t0 + tokenValidityWindow)

/-! Job poll loop of spatializeAudio (services/ircam): the provider is an
oracle giving one response per status GET; the loop and the final report
fetch are recorded as an event trace. -/

/-- Externally visible events of the poll phase: the fixed setTimeout delay,
one job-status GET, and the final report GET. -/
inductive PollEvent where
  | sleep (ms : Nat)
  | statusCheck
  | finalFetch
deriving Repr, DecidableEq

/-- Outcome of the while loop: an exception (missing job_infos, or the error
sentinel rethrown right after the loop), the success sentinel, or the oracle
running out of responses (the real loop would keep polling). -/
inductive PollOutcome where
  | failed (msg : String)
  | succeeded
  | ranOut
deriving Repr, DecidableEq

/-- The while loop of spatializeAudio: pollCount is the number of status
checks already issued; each iteration sleeps 5000 ms first unless it is the
first, then issues one GET; a response without job_infos throws; the loop
ends on the success or error sentinel. Each status response oracle entry is
none when job_infos is missing, some job_status otherwise. -/
def pollLoop : Nat → List (Option String) → List PollEvent × PollOutcome
  | _, [] => ([], PollOutcome.ranOut)
  | pollCount, resp :: rest =>
    let pre : List PollEvent :=
      if pollCount + 1 > 1 then [PollEvent.sleep 5000] else []
    match resp with
    | none =>
        (pre ++ [PollEvent.statusCheck],
         PollOutcome.failed "Invalid status response: missing job_infos")
    | some status =>
        if status = "error" then
          (pre ++ [PollEvent.statusCheck], PollOutcome.failed "Spatialization job failed")
        else if status = "success" then
          (pre ++ [PollEvent.statusCheck], PollOutcome.succeeded)
        else
          let r := pollLoop (pollCount + 1) rest
          (pre ++ [PollEvent.statusCheck] ++ r.1, r.2)

/-- The report object inside job_infos.report_info.report: each file entry is
the id of report.binauralFile / report.immersiveFile when present with an id. -/
structure Report where
  binauralFile : Option String := none
  immersiveFile : Option String := none
deriving Repr, DecidableEq

/-- Result of the poll-to-report phase. -/
inductive RunResult where
  | report (r : Report)
  | failure (msg : String)
  | pending
deriving Repr, DecidableEq

/-- Poll loop plus the post-loop steps of spatializeAudio: throw on the error
sentinel, then one more GET whose payload is the finalReport oracle (none
when job_infos.report_info.report is missing). -/
def runToCompletion (statuses : List (Option String)) (finalReport : Option Report) :
    List PollEvent × RunResult :=
  let r := pollLoop 0 statuses
  match r.2 with
  | PollOutcome.failed msg => (r.1, RunResult.failure msg)
  | PollOutcome.ranOut => (r.1, RunResult.pending)
  | PollOutcome.succeeded =>
      match finalReport with
      | none =>
          (r.1 ++ [PollEvent.finalFetch],
           RunResult.failure "Invalid final response: missing report")
      | some rep => (r.1 ++ [PollEvent.finalFetch], RunResult.report rep)

/-- The first terminal sentinel a status sequence reaches, scanning as the
loop does: a malformed response aborts before any sentinel is reached. -/
def firstTerminal : List (Option String) → Option String
  | [] => none
  | none :: _ => none
  | some s :: rest =>
      if s = "error" then some "error"
      else if s = "success" then some "success"
      else firstTerminal rest

/-- The download phase of spatializeAudio: each of the two files is fetched
exactly when the report lists it; the paths returned by downloadFile are
oracle parameters. -/
structure Downloads where
  binaural : Option String := none
  immersive : Option String := none
deriving Repr, DecidableEq

/-- downloads.binaural is set iff report.binauralFile has an id, likewise for
immersive. -/
def computeDownloads (rep : Report) (binPath immPath : String) : Downloads where
  binaural := rep.binauralFile.map (fun _ => binPath)
  immersive := rep.immersiveFile.map (fun _ => immPath)

/-! The /api/spatialize route handler (routes) and the TTL cleanup sweep. -/

/-- What spatializeAudio returns to the route on success. -/
structure SpatResult where
  jobId : String
  downloads : Downloads
deriving Repr, DecidableEq

/-- The environment the /api/spatialize handler runs against: the temp
directory listing with per-session mtimes, the original_ file found in the
latest session directory, the outcome of spatializeAudio, the outcome of
createProcessedFilesZip together with the zip stat size, and the stat sizes
of the two downloaded artifacts. -/
structure SpatializeEnv where
  tempSessions : List (String × Nat)
  originalFile : Option String
  spatOutcome : Except String SpatResult
  zipOutcome : Except String (String × Nat)
  binauralSize : Nat
  immersiveSize : Nat
deriving Repr

/-- The session the handler resolves: first element after the stable sort of
the directory stats by descending mtime, i.e. the first entry carrying the
maximal mtime. -/
def latestByMtime (l : List (String × Nat)) : Option (String × Nat) :=
  l.foldl
    (fun acc e =>
      match acc with
      | none => some e
      | some a => if e.2 > a.2 then some e else acc)
    none

/-- The JSON the handler sends back: res.json(result) on success (sizes and
zipSize only present when set on result.downloads), the 400 for a missing
iasUrl, or the catch-all 500 with its fixed message. -/
inductive HandlerResponse where
  | ok (jobId : String) (binaural immersive : Option String)
      (binauralSize immersiveSize zipSize : Option Nat)
  | badRequest (msg : String)
  | serverError (msg : String)
deriving Repr, DecidableEq

/-- zipSize field of an ok response, none otherwise. -/
def responseZipSize : HandlerResponse → Option Nat
  | HandlerResponse.ok _ _ _ _ _ zs => zs
  | _ => none

/-- The /api/spatialize handler: resolve the latest session by mtime, find the
original_ file, run spatializeAudio, and when both artifacts were downloaded
stat them and attempt the zip build; a zip failure is caught, logged and
swallowed (the response still succeeds without a zipSize and the store is not
updated), any other failure lands in the outer catch as a 500. Returns the
response, the resulting session store, and the list of errors that were
swallowed (logged without being surfaced). -/
def apiSpatialize (env : SpatializeEnv) (store : SessionMap) (iasUrlPresent : Bool) :
    HandlerResponse × SessionMap × List String :=
  if !iasUrlPresent then (HandlerResponse.badRequest "Missing iasUrl parameter", store, [])
  else
    match latestByMtime env.tempSessions with
    | none => (HandlerResponse.serverError "Spatialization failed", store, [])
    | some latest =>
      match env.originalFile with
      | none => (HandlerResponse.serverError "Spatialization failed", store, [])
      | some _orig =>
        match env.spatOutcome with
        | Except.error _ => (HandlerResponse.serverError "Spatialization failed", store, [])
        | Except.ok result =>
          match result.downloads.binaural, result.downloads.immersive with
          | some bp, some ip =>
            (match env.zipOutcome with
             | Except.ok (zipPath, zipSize) =>
                 (HandlerResponse.ok result.jobId (some bp) (some ip)
                    (some env.binauralSize) (some env.immersiveSize) (some zipSize),
                  updateSession store latest.1
                    { zipPath := some zipPath, zipSize := some zipSize },
                  [])
             | Except.error e =>
                 (HandlerResponse.ok result.jobId (some bp) (some ip)
                    (some env.binauralSize) (some env.immersiveSize) none,
                  store, [e]))
          | _, _ =>
            (HandlerResponse.ok result.jobId result.downloads.binaural
               result.downloads.immersive none none none,
             store, [])

/-- MAX_SESSION_AGE / MAX_AGE: 15 minutes in milliseconds. -/
def maxSessionAge : Nat := 15 * 60 * 1000

/-- cleanupTempDirectory / cleanupOldFiles: walk the temp directory entries,
and for each whose mtime age strictly exceeds the TTL remove the directory
and its session-store entry; younger entries are kept untouched. Returns the
surviving directory listing and the resulting store. -/
def cleanupOldFiles (now : Nat) : List (String × Nat) → SessionMap → List (String × Nat) × SessionMap
  | [], store => ([], store)
  | e :: rest, store =>
    if now - e.2 > maxSessionAge then
      cleanupOldFiles now rest (removeSession store e.1)
    else
      let r := cleanupOldFiles now rest store
      (e :: r.1, r.2)

/-- Checker for the poll pacing pattern: with the flag true the trace must
start with a status check carrying no delay; afterwards every further status
check is preceded by exactly one 5000 ms sleep. -/
def pollPatternFrom : Bool → List PollEvent → Bool
  | _, [] => true
  | true, PollEvent.statusCheck :: rest => pollPatternFrom false rest
  | false, PollEvent.sleep 5000 :: PollEvent.statusCheck :: rest => pollPatternFrom false rest
  | _, _ => false

/-- Sample session record used to instantiate theorems on concrete stores. -/
def sampleA : SessionData := { fileId := "fa", iasUrl := "ua" }

/-- Second sample session record. -/
def sampleB : SessionData := { fileId := "fb", iasUrl := "ub" }

/-- Registry reached by saving A, saving B, then touching (updating) A: the
scenario where the most recently touched session is not the most recently
created one. -/
def touchedStore : SessionMap :=
  updateSession (saveSession (saveSession [] "A" sampleA) "B" sampleB) "A"
    { zipPath := some "z.zip", zipSize := some 3 }

/-- Handler environment in which both artifacts download but the archive
build fails. -/
def zipFailEnv : SpatializeEnv :=
  { tempSessions := [("s1", 10)]
    originalFile := some "original_track.wav"
    spatOutcome := Except.ok
      { jobId := "job1"
        downloads := { binaural := some "s1/binaural_track.mp3"
                       immersive := some "s1/immersive_track.wav" } }
    zipOutcome := Except.error "ZIP creation failed"
    binauralSize := 111
    immersiveSize := 222 }

/-- Store backing the zipFailEnv scenario. -/
def zipFailStore : SessionMap := [("s1", { fileId := "f1", iasUrl := "u1" })]

/-- Handler environment in which both artifacts download and the archive
build succeeds. -/
def bothEnv : SpatializeEnv :=
  { tempSessions := [("s1", 10)]
    originalFile := some "original_track.wav"
    spatOutcome := Except.ok
      { jobId := "j"
        downloads := { binaural := some "b", immersive := some "i" } }
    zipOutcome := Except.ok ("s1/out.zip", 42)
    binauralSize := 1
    immersiveSize := 2 }

/-- Handler environment in which the provider reported only a binaural file. -/
def binOnlyEnv : SpatializeEnv :=
  { tempSessions := [("s1", 10)]
    originalFile := some "original_track.wav"
    spatOutcome := Except.ok
      { jobId := "j"
        downloads := { binaural := some "b", immersive := none } }
    zipOutcome := Except.ok ("s1/out.zip", 42)
    binauralSize := 1
    immersiveSize := 2 }

end StereoToSpatial

namespace StereoToSpatial

/-! Helper lemmas on the Map embedding, shared by the registry claims. -/

theorem mapGet_delete_same (m : SessionMap) (k : String) :
    mapGet (mapDelete m k) k = none := by
  induction m with
  | nil => rfl
  | cons e rest ih =>
    by_cases hek : e.1 = k
    · simpa [mapDelete, hek] using ih
    · simpa [mapDelete, mapGet, hek] using ih

theorem mapGet_delete_other (m : SessionMap) (k j : String) (h : j ≠ k) :
    mapGet (mapDelete m k) j = mapGet m j := by
  induction m with
  | nil => rfl
  | cons e rest ih =>
    by_cases hek : e.1 = k
    · have hej : e.1 ≠ j := fun hj => h (hj ▸ hek)
      simpa [mapDelete, mapGet, hek, hej, Ne.symm h] using ih
    · by_cases hej : e.1 = j
      · simp [mapDelete, mapGet, hek, hej, h, Ne.symm h]
      · simpa [mapDelete, mapGet, hek, hej] using ih

theorem mapDelete_idem (m : SessionMap) (k : String) :
    mapDelete (mapDelete m k) k = mapDelete m k := by
  induction m with
  | nil => rfl
  | cons e rest ih =>
    by_cases hek : e.1 = k
    · simpa [mapDelete, hek] using ih
    · simpa [mapDelete, hek] using ih

theorem mapDelete_absent (m : SessionMap) (k : String) (h : mapGet m k = none) :
    mapDelete m k = m := by
  induction m with
  | nil => rfl
  | cons e rest ih =>
    by_cases hek : e.1 = k
    · simp [mapGet, hek] at h
    · simp only [mapGet, if_neg hek] at h
      simp [mapDelete, hek, ih h]

theorem mapHasKey_false_get (m : SessionMap) (k : String) (h : mapHasKey m k = false) :
    mapGet m k = none := by
  induction m with
  | nil => rfl
  | cons e rest ih =>
    simp only [mapHasKey, Bool.or_eq_false_iff, decide_eq_false_iff_not] at h
    simp [mapGet, h.1, ih h.2]

theorem mapGet_replace_same (m : SessionMap) (k : String) (v : SessionData)
    (hk : mapHasKey m k = true) : mapGet (replaceEntry m k v) k = some v := by
  induction m with
  | nil => simp [mapHasKey] at hk
  | cons e rest ih =>
    by_cases hek : e.1 = k
    · simp [replaceEntry, mapGet, hek]
    · simp only [mapHasKey, Bool.or_eq_true, decide_eq_true_eq] at hk
      rcases hk with hk | hk
      · exact absurd hk hek
      · simpa [replaceEntry, mapGet, hek] using ih hk

theorem mapGet_replace_other (m : SessionMap) (k j : String) (v : SessionData)
    (h : j ≠ k) : mapGet (replaceEntry m k v) j = mapGet m j := by
  induction m with
  | nil => rfl
  | cons e rest ih =>
    by_cases hek : e.1 = k
    · have hej : e.1 ≠ j := by rw [hek]; exact Ne.symm h
      simp [replaceEntry, mapGet, hek, hej, h, Ne.symm h]
    · by_cases hej : e.1 = j
      · simp [replaceEntry, mapGet, hek, hej, h, Ne.symm h]
      · simpa [replaceEntry, mapGet, hek, hej] using ih

theorem mapGet_append_same (m : SessionMap) (k : String) (v : SessionData)
    (h : mapGet m k = none) : mapGet (m ++ [(k, v)]) k = some v := by
  induction m with
  | nil => simp [mapGet]
  | cons e rest ih =>
    by_cases hek : e.1 = k
    · simp [mapGet, hek] at h
    · simp only [mapGet, if_neg hek] at h
      simpa [mapGet, hek] using ih h

theorem mapGet_append_other (m : SessionMap) (k j : String) (v : SessionData)
    (h : j ≠ k) : mapGet (m ++ [(k, v)]) j = mapGet m j := by
  induction m with
  | nil => simp [mapGet, Ne.symm h]
  | cons e rest ih =>
    by_cases hej : e.1 = j
    · simp [mapGet, hej]
    · simpa [mapGet, hej] using ih

theorem mapGet_set_same (m : SessionMap) (k : String) (v : SessionData) :
    mapGet (mapSet m k v) k = some v := by
  unfold mapSet
  by_cases hk : mapHasKey m k = true
  · rw [if_pos hk]; exact mapGet_replace_same m k v hk
  · rw [if_neg hk]
    rw [Bool.not_eq_true] at hk
    exact mapGet_append_same m k v (mapHasKey_false_get m k hk)

theorem mapGet_set_other (m : SessionMap) (k j : String) (v : SessionData) (h : j ≠ k) :
    mapGet (mapSet m k v) j = mapGet m j := by
  unfold mapSet
  by_cases hk : mapHasKey m k = true
  · rw [if_pos hk]; exact mapGet_replace_other m k j v h
  · rw [if_neg hk]; exact mapGet_append_other m k j v h

theorem mapGet_some_hasKey (m : SessionMap) (k : String) (v : SessionData)
    (h : mapGet m k = some v) : mapHasKey m k = true := by
  induction m with
  | nil => simp [mapGet] at h
  | cons e rest ih =>
    by_cases hek : e.1 = k
    · simp [mapHasKey, hek]
    · simp only [mapGet, if_neg hek] at h
      simp [mapHasKey, hek, ih h]

theorem mapHasKey_append_single (m : SessionMap) (k j : String) (v : SessionData) :
    mapHasKey (m ++ [(k, v)]) j = (mapHasKey m j || decide (k = j)) := by
  induction m with
  | nil => simp [mapHasKey]
  | cons e rest ih => simp [mapHasKey, ih, Bool.or_assoc]

theorem mapDelete_append (x y : SessionMap) (k : String) :
    mapDelete (x ++ y) k = mapDelete x k ++ mapDelete y k := by
  induction x with
  | nil => rfl
  | cons e rest ih =>
    by_cases hek : e.1 = k
    · simp [mapDelete, hek, ih]
    · simp [mapDelete, hek, ih]

theorem replaceEntry_keys (m : SessionMap) (k : String) (v : SessionData) :
    (replaceEntry m k v).map (fun e => e.1) = m.map (fun e => e.1) := by
  induction m with
  | nil => rfl
  | cons e rest ih =>
    by_cases hek : e.1 = k
    · simp [replaceEntry, hek]
    · simp [replaceEntry, hek, ih]

/-- C8: evict (SessionStore.removeSession) never errors — it is a total
operation; evicting twice, or evicting a never-created id, is a no-op beyond
the first removal; and after evicting s, looking up s returns absent while
every other id answers exactly as before, identically to a registry in which
s never existed. -/
theorem c8_evict_idempotent :
    (∀ m sid, removeSession (removeSession m sid) sid = removeSession m sid)
  ∧ (∀ m sid, getSession m sid = none → removeSession m sid = m)
  ∧ (∀ m sid, getSession (removeSession m sid) sid = none)
  ∧ (∀ m sid k, k ≠ sid → getSession (removeSession m sid) k = getSession m k) :=
  ⟨fun m sid => mapDelete_idem m sid,
   fun m sid h => mapDelete_absent m sid h,
   fun m sid => mapGet_delete_same m sid,
   fun m sid k h => mapGet_delete_other m sid k h⟩

/-- Witness for c8_evict_idempotent on a two-session registry. -/
theorem c8_evict_idempotent_witness :
    removeSession [("A", sampleA)] "B" = [("A", sampleA)]
  ∧ getSession (removeSession [("A", sampleA), ("B", sampleB)] "B") "A" = some sampleA := by
  constructor
  · exact c8_evict_idempotent.2.1 [("A", sampleA)] "B" (by decide)
  · rw [c8_evict_idempotent.2.2.2 [("A", sampleA), ("B", sampleB)] "B" "A" (by decide)]
    decide

/-- C10: updateSession on a present id stores exactly the merge of the patch
over the current record — provided fields replace, absent fields are kept
(in particular a zipPath/zipSize-only patch preserves fileId and iasUrl) —
leaves every other session unchanged, and on an absent id leaves the whole
registry unchanged without raising (updateSession is total). -/
theorem c10_update_frame :
    (∀ m sid cur p, getSession m sid = some cur →
       getSession (updateSession m sid p) sid = some (mergePatch cur p))
  ∧ (∀ cur zp zs,
       mergePatch cur { zipPath := some zp, zipSize := some zs } =
         { fileId := cur.fileId, iasUrl := cur.iasUrl, zipPath := some zp, zipSize := some zs })
  ∧ (∀ cur p,
       (p.fileId = none → (mergePatch cur p).fileId = cur.fileId)
     ∧ (p.iasUrl = none → (mergePatch cur p).iasUrl = cur.iasUrl)
     ∧ (p.zipPath = none → (mergePatch cur p).zipPath = cur.zipPath)
     ∧ (p.zipSize = none → (mergePatch cur p).zipSize = cur.zipSize))
  ∧ (∀ m sid p k, k ≠ sid → getSession (updateSession m sid p) k = getSession m k)
  ∧ (∀ m sid p, getSession m sid = none → updateSession m sid p = m) := by
  refine ⟨?_, ?_, ?_, ?_, ?_⟩
  · intro m sid cur p h
    have h2 : mapGet m sid = some cur := h
    unfold updateSession
    rw [h2]
    exact mapGet_set_same m sid (mergePatch cur p)
  · intro cur zp zs; rfl
  · intro cur p
    refine ⟨fun h => ?_, fun h => ?_, fun h => ?_, fun h => ?_⟩ <;> simp [mergePatch, h]
  · intro m sid p k hk
    unfold updateSession
    cases hg : mapGet m sid with
    | none => rfl
    | some cur => exact mapGet_set_other m sid k (mergePatch cur p) hk
  · intro m sid p h
    have h2 : mapGet m sid = none := h
    unfold updateSession
    rw [h2]

/-- Witness for c10_update_frame: a zipPath/zipSize patch on a present id
keeps fileId and iasUrl, other sessions and absent-id updates are no-ops. -/
theorem c10_update_frame_witness :
    getSession (updateSession [("A", sampleA)] "A" { zipPath := some "z.zip", zipSize := some 7 }) "A"
      = some (mergePatch sampleA { zipPath := some "z.zip", zipSize := some 7 })
  ∧ (mergePatch sampleA { zipPath := some "z.zip", zipSize := some 7 }).fileId = sampleA.fileId
  ∧ getSession (updateSession [("A", sampleA), ("B", sampleB)] "B" { zipSize := some 7 }) "A"
      = some sampleA
  ∧ updateSession [("A", sampleA)] "B" { zipPath := some "z.zip" } = [("A", sampleA)] := by
  refine ⟨c10_update_frame.1 [("A", sampleA)] "A" sampleA _ (by decide), ?_, ?_, ?_⟩
  · exact (c10_update_frame.2.2.1 sampleA { zipPath := some "z.zip", zipSize := some 7 }).1 rfl
  · rw [c10_update_frame.2.2.2.1 [("A", sampleA), ("B", sampleB)] "B" { zipSize := some 7 } "A"
      (by decide)]
    decide
  · exact c10_update_frame.2.2.2.2 [("A", sampleA)] "B" { zipPath := some "z.zip" } (by decide)

/-- C1 counterexample: in the registry reached by saving A, then saving B,
then touching (updating) A, the session with the greatest lastTouchedAt is A,
yet getLatestSession returns B — latest() follows Map insertion order, not
last-touch time. -/
theorem c1_latest_not_by_touch :
    (getLatestSession touchedStore).map (fun e => e.1) = some "B"
  ∧ latestByLastTouched [("A", 2), ("B", 1)] = some "A"
  ∧ (getLatestSession touchedStore).map (fun e => e.1) ≠
      latestByLastTouched [("A", 2), ("B", 1)] := by
  refine ⟨by decide, by decide, by decide⟩

/-- C1 amended: getLatestSession returns absent on an empty registry and
otherwise the most recently inserted session: after saving fresh A then fresh
B it returns B, after evicting B again A; updating any session never changes
which session is returned (an update keeps the Map position of its key). -/
theorem c1_latest_insertion_order :
    getLatestSession [] = none
  ∧ (∀ m sid d, mapHasKey m sid = false →
       getLatestSession (saveSession m sid d) = some (sid, d))
  ∧ (∀ m a b da db, mapHasKey m a = false → mapHasKey m b = false → a ≠ b →
       getLatestSession (removeSession (saveSession (saveSession m a da) b db) b)
         = some (a, da))
  ∧ (∀ m sid p, (getLatestSession (updateSession m sid p)).map (fun e => e.1)
       = (getLatestSession m).map (fun e => e.1)) := by
  refine ⟨rfl, ?_, ?_, ?_⟩
  · intro m sid d h
    unfold saveSession mapSet
    rw [if_neg (by simp [h])]
    exact List.getLast?_concat m
  · intro m a b da db ha hb hab
    have hs1 : saveSession m a da = m ++ [(a, da)] := by
      unfold saveSession mapSet
      rw [if_neg (by simp [ha])]
    have hs1b : mapHasKey (m ++ [(a, da)]) b = false := by
      rw [mapHasKey_append_single]
      simp [hb, hab]
    have hs2 : saveSession (m ++ [(a, da)]) b db = (m ++ [(a, da)]) ++ [(b, db)] := by
      unfold saveSession mapSet
      rw [if_neg (by simp [hs1b])]
    rw [hs1, hs2]
    unfold removeSession getLatestSession
    rw [mapDelete_append, mapDelete_append]
    have hma : mapDelete m b = m :=
      mapDelete_absent m b (mapHasKey_false_get m b hb)
    have hada : mapDelete [(a, da)] b = [(a, da)] := by
      simp [mapDelete, hab]
    have hbdb : mapDelete [(b, db)] b = [] := by
      simp [mapDelete]
    rw [hma, hada, hbdb, List.append_nil]
    exact List.getLast?_concat m
  · intro m sid p
    unfold updateSession
    cases hg : mapGet m sid with
    | none => rfl
    | some cur =>
      have hk : mapHasKey m sid = true := mapGet_some_hasKey m sid cur hg
      simp only [mapSet, hk, if_true]
      unfold getLatestSession
      rw [← List.getLast?_map, ← List.getLast?_map, replaceEntry_keys]

/-- Witness for c1_latest_insertion_order on concrete registries. -/
theorem c1_latest_insertion_order_witness :
    getLatestSession (saveSession [] "A" sampleA) = some ("A", sampleA)
  ∧ getLatestSession
      (removeSession (saveSession (saveSession [] "A" sampleA) "B" sampleB) "B")
      = some ("A", sampleA) := by
  constructor
  · exact c1_latest_insertion_order.2.1 [] "A" sampleA (by decide)
  · exact c1_latest_insertion_order.2.2.1 [] "A" "B" sampleA sampleB
      (by decide) (by decide) (by decide)

/-- C7: in any state whose expiry was written by a refresh at a past instant
t0 (as t0 plus the fixed 30-minute window), a token returned by
ensureValidToken was issued strictly less than the window ago; refresh always
sets the expiry to now plus the window, whatever expiry the server declared;
and getIrcamToken is absent whenever now has reached the stored expiry. -/
theorem c7_token_window :
    (∀ st now resp st2 tok, TokenWF st now →
       ensureValidToken st now resp = Except.ok (st2, some tok) →
       ∃ t0, t0 ≤ now ∧ st2.tokenExpiry = some (t0 + tokenValidityWindow)
         ∧ now - t0 < tokenValidityWindow)
  ∧ (∀ st now r, refreshIrcamToken st now (some r) =
       Except.ok ({ ircamToken := some r.idToken,
                    tokenExpiry := some (now + tokenValidityWindow) }, r.idToken))
  ∧ (∀ st now exp, st.tokenExpiry = some exp → now ≥ exp →
       getIrcamToken st now = none) := by
  refine ⟨?_, ?_, ?_⟩
  · intro st now resp st2 tok hwf h
    unfold ensureValidToken at h
    cases hg : getIrcamToken st now with
    | some t =>
      rw [hg] at h
      cases h
      rcases hwf with hnone | ⟨t0, ht0, hexp⟩
      · unfold getIrcamToken at hg
        rw [hnone] at hg
        cases hst : st.ircamToken <;> rw [hst] at hg <;> cases hg
      · refine ⟨t0, ht0, hexp, ?_⟩
        cases hst : st.ircamToken with
        | none => simp [getIrcamToken, hst] at hg
        | some tk =>
          simp only [getIrcamToken, hexp, hst] at hg
          by_cases hlt : now ≥ t0 + tokenValidityWindow
          · rw [if_pos hlt] at hg; cases hg
          · omega
    | none =>
      rw [hg] at h
      cases resp with
      | none => cases h
      | some r =>
        have hw : 0 < tokenValidityWindow := by decide
        have hif : getIrcamToken
            { ircamToken := some r.idToken, tokenExpiry := some (now + tokenValidityWindow) } now
            = some r.idToken := by
          simp only [getIrcamToken]
          rw [if_neg (by omega)]
        simp only [refreshIrcamToken, hif] at h
        cases h
        exact ⟨now, le_refl now, rfl, by omega⟩
  · intro st now r; rfl
  · intro st now exp hexp hge
    cases hst : st.ircamToken with
    | none => simp [getIrcamToken, hst]
    | some tk => simp [getIrcamToken, hst, hexp, hge]

/-- Witness for c7_token_window: starting from the empty token state at time
7 with a successful refresh, the returned token was issued within the
window; a refresh at time 7 sets the expiry to 7 plus the window; and a
token expiring at 5 is absent at time 5. -/
theorem c7_token_window_witness :
    (∃ t0, t0 ≤ 7 ∧ (TokenState.mk (some "tok") (some (7 + tokenValidityWindow))).tokenExpiry
        = some (t0 + tokenValidityWindow) ∧ 7 - t0 < tokenValidityWindow)
  ∧ refreshIrcamToken (TokenState.mk none none) 7 (some (AuthResponse.mk "tok" (some 99))) =
      Except.ok (TokenState.mk (some "tok") (some (7 + tokenValidityWindow)), "tok")
  ∧ getIrcamToken (TokenState.mk (some "tok") (some 5)) 5 = none := by
  refine ⟨?_, ?_, ?_⟩
  · exact c7_token_window.1 (TokenState.mk none none) 7 (some (AuthResponse.mk "tok" (some 99)))
      (TokenState.mk (some "tok") (some (7 + tokenValidityWindow))) "tok"
      (Or.inl rfl) rfl
  · exact c7_token_window.2.1 (TokenState.mk none none) 7 (AuthResponse.mk "tok" (some 99))
  · exact c7_token_window.2.2 (TokenState.mk (some "tok") (some 5)) 5 5 rfl (le_refl 5)

/-! Poll loop lemmas: unfolding equations for each provider response shape. -/

theorem pollLoop_nil (c : Nat) : pollLoop c [] = ([], PollOutcome.ranOut) := rfl

theorem pollLoop_cons_none (c : Nat) (rest : List (Option String)) :
    pollLoop c (none :: rest) =
      ((if c + 1 > 1 then [PollEvent.sleep 5000] else []) ++ [PollEvent.statusCheck],
       PollOutcome.failed "Invalid status response: missing job_infos") := rfl

theorem pollLoop_cons_error (c : Nat) (rest : List (Option String)) :
    pollLoop c (some "error" :: rest) =
      ((if c + 1 > 1 then [PollEvent.sleep 5000] else []) ++ [PollEvent.statusCheck],
       PollOutcome.failed "Spatialization job failed") := rfl

theorem pollLoop_cons_success (c : Nat) (rest : List (Option String)) :
    pollLoop c (some "success" :: rest) =
      ((if c + 1 > 1 then [PollEvent.sleep 5000] else []) ++ [PollEvent.statusCheck],
       PollOutcome.succeeded) := rfl

theorem pollLoop_cons_other (c : Nat) (rest : List (Option String)) (status : String)
    (h1 : status ≠ "error") (h2 : status ≠ "success") :
    pollLoop c (some status :: rest) =
      ((if c + 1 > 1 then [PollEvent.sleep 5000] else []) ++ [PollEvent.statusCheck]
         ++ (pollLoop (c + 1) rest).1,
       (pollLoop (c + 1) rest).2) := by
  simp only [pollLoop]
  rw [if_neg h1, if_neg h2]

theorem firstTerminal_cons_other (rest : List (Option String)) (status : String)
    (h1 : status ≠ "error") (h2 : status ≠ "success") :
    firstTerminal (some status :: rest) = firstTerminal rest := by
  simp only [firstTerminal]
  rw [if_neg h1, if_neg h2]

theorem pollLoop_tail_pattern (statuses : List (Option String)) :
    ∀ c, pollPatternFrom false (pollLoop (c + 1) statuses).1 = true := by
  induction statuses with
  | nil => intro c; rfl
  | cons resp rest ih =>
    intro c
    have hpre : ((if c + 1 + 1 > 1 then [PollEvent.sleep 5000] else []) : List PollEvent)
        = [PollEvent.sleep 5000] := if_pos (by omega)
    cases resp with
    | none => rw [pollLoop_cons_none, hpre]; rfl
    | some status =>
      by_cases he : status = "error"
      · subst he; rw [pollLoop_cons_error, hpre]; rfl
      · by_cases hs : status = "success"
        · subst hs; rw [pollLoop_cons_success, hpre]; rfl
        · rw [pollLoop_cons_other (c + 1) rest status he hs, hpre]
          simpa [pollPatternFrom] using ih (c + 1)

theorem pollLoop_terminal_error (statuses : List (Option String)) :
    ∀ c, firstTerminal statuses = some "error" →
      (pollLoop c statuses).2 = PollOutcome.failed "Spatialization job failed" := by
  induction statuses with
  | nil => intro c h; exact absurd h (by decide)
  | cons resp rest ih =>
    intro c h
    cases resp with
    | none =>
      rw [show firstTerminal (none :: rest) = none from rfl] at h
      exact Option.noConfusion h
    | some status =>
      by_cases he : status = "error"
      · subst he; rw [pollLoop_cons_error]
      · by_cases hs : status = "success"
        · subst hs
          rw [show firstTerminal (some "success" :: rest) = some "success" from rfl] at h
          exact absurd (Option.some.inj h) (by decide)
        · rw [pollLoop_cons_other c rest status he hs]
          exact ih (c + 1) ((firstTerminal_cons_other rest status he hs) ▸ h)

theorem pollLoop_terminal_success (statuses : List (Option String)) :
    ∀ c, firstTerminal statuses = some "success" →
      (pollLoop c statuses).2 = PollOutcome.succeeded := by
  induction statuses with
  | nil => intro c h; exact absurd h (by decide)
  | cons resp rest ih =>
    intro c h
    cases resp with
    | none =>
      rw [show firstTerminal (none :: rest) = none from rfl] at h
      exact Option.noConfusion h
    | some status =>
      by_cases he : status = "error"
      · subst he
        rw [show firstTerminal (some "error" :: rest) = some "error" from rfl] at h
        exact absurd (Option.some.inj h) (by decide)
      · by_cases hs : status = "success"
        · subst hs; rw [pollLoop_cons_success]
        · rw [pollLoop_cons_other c rest status he hs]
          exact ih (c + 1) ((firstTerminal_cons_other rest status he hs) ▸ h)

theorem pollLoop_no_finalFetch (statuses : List (Option String)) :
    ∀ c, PollEvent.finalFetch ∉ (pollLoop c statuses).1 := by
  induction statuses with
  | nil => intro c; simp [pollLoop_nil]
  | cons resp rest ih =>
    intro c
    have hnp : PollEvent.finalFetch ∉
        ((if c + 1 > 1 then [PollEvent.sleep 5000] else []) : List PollEvent) := by
      by_cases h : c + 1 > 1 <;> simp [h]
    cases resp with
    | none => rw [pollLoop_cons_none]; simp [hnp]
    | some status =>
      by_cases he : status = "error"
      · subst he; rw [pollLoop_cons_error]; simp [hnp]
      · by_cases hs : status = "success"
        · subst hs; rw [pollLoop_cons_success]; simp [hnp]
        · rw [pollLoop_cons_other c rest status he hs]
          simp [hnp, ih (c + 1)]

/-- C4: the event trace of the poll loop starts with a status check carrying
no initial delay, and every subsequent status check is preceded by exactly
one fixed 5000 ms sleep; the trace is a single sequential interleaving, so a
status check is only ever issued after the previous one has returned. -/
theorem c4_poll_pacing :
    (∀ statuses, pollPatternFrom true (pollLoop 0 statuses).1 = true)
  ∧ (∀ statuses, statuses ≠ [] →
       (pollLoop 0 statuses).1.head? = some PollEvent.statusCheck) := by
  have hpre0 : ((if 0 + 1 > 1 then [PollEvent.sleep 5000] else []) : List PollEvent) = [] :=
    if_neg (by omega)
  constructor
  · intro statuses
    cases statuses with
    | nil => rfl
    | cons resp rest =>
      cases resp with
      | none => rw [pollLoop_cons_none, hpre0]; rfl
      | some status =>
        by_cases he : status = "error"
        · subst he; rw [pollLoop_cons_error, hpre0]; rfl
        · by_cases hs : status = "success"
          · subst hs; rw [pollLoop_cons_success, hpre0]; rfl
          · rw [pollLoop_cons_other 0 rest status he hs, hpre0]
            simpa [pollPatternFrom] using pollLoop_tail_pattern rest 0
  · intro statuses hne
    cases statuses with
    | nil => exact absurd rfl hne
    | cons resp rest =>
      cases resp with
      | none => rw [pollLoop_cons_none, hpre0]; rfl
      | some status =>
        by_cases he : status = "error"
        · subst he; rw [pollLoop_cons_error, hpre0]; rfl
        · by_cases hs : status = "success"
          · subst hs; rw [pollLoop_cons_success, hpre0]; rfl
          · rw [pollLoop_cons_other 0 rest status he hs, hpre0]; rfl

/-- Witness for c4_poll_pacing on the sequence pending, success. -/
theorem c4_poll_pacing_witness :
    pollPatternFrom true (pollLoop 0 [some "pending", some "success"]).1 = true
  ∧ (pollLoop 0 [some "pending", some "success"]).1.head? = some PollEvent.statusCheck :=
  ⟨c4_poll_pacing.1 [some "pending", some "success"],
   c4_poll_pacing.2 [some "pending", some "success"] (by decide)⟩

/-- C5: a status sequence reaching the error sentinel makes runToCompletion
fail with the job-failed error and the trace contains no final report fetch;
a sequence reaching the success sentinel with a well-formed final payload
terminates with that Report. -/
theorem c5_terminal_outcomes :
    (∀ statuses finalReport, firstTerminal statuses = some "error" →
       (runToCompletion statuses finalReport).2 = RunResult.failure "Spatialization job failed"
     ∧ PollEvent.finalFetch ∉ (runToCompletion statuses finalReport).1)
  ∧ (∀ statuses rep, firstTerminal statuses = some "success" →
       (runToCompletion statuses (some rep)).2 = RunResult.report rep) := by
  constructor
  · intro statuses finalReport h
    have h2 := pollLoop_terminal_error statuses 0 h
    refine ⟨?_, ?_⟩ <;> simp only [runToCompletion, h2]
    exact pollLoop_no_finalFetch statuses 0
  · intro statuses rep h
    have h2 := pollLoop_terminal_success statuses 0 h
    simp only [runToCompletion, h2]

/-- Witness for c5_terminal_outcomes on the sequences of the spec scenario. -/
theorem c5_terminal_outcomes_witness :
    ((runToCompletion [some "pending", some "error"] (some { binauralFile := some "b" })).2
        = RunResult.failure "Spatialization job failed"
      ∧ PollEvent.finalFetch ∉
          (runToCompletion [some "pending", some "error"] (some { binauralFile := some "b" })).1)
  ∧ (runToCompletion [some "pending", some "pending", some "success"]
        (some { binauralFile := some "b" })).2
      = RunResult.report { binauralFile := some "b" } :=
  ⟨c5_terminal_outcomes.1 [some "pending", some "error"]
     (some { binauralFile := some "b" }) (by decide),
   c5_terminal_outcomes.2 [some "pending", some "pending", some "success"]
     { binauralFile := some "b" } (by decide)⟩

/-- C6: once the provider reports the success sentinel, runToCompletion makes
exactly one final report fetch, and a missing nested report in that response
makes the run fail with the malformed-response error despite the claimed
success. -/
theorem c6_single_report_fetch :
    (∀ statuses finalReport, firstTerminal statuses = some "success" →
       (runToCompletion statuses finalReport).1.count PollEvent.finalFetch = 1)
  ∧ (∀ statuses, firstTerminal statuses = some "success" →
       (runToCompletion statuses none).2
         = RunResult.failure "Invalid final response: missing report") := by
  constructor
  · intro statuses finalReport h
    have h2 := pollLoop_terminal_success statuses 0 h
    have h3 : (runToCompletion statuses finalReport).1
        = (pollLoop 0 statuses).1 ++ [PollEvent.finalFetch] := by
      cases finalReport <;> simp only [runToCompletion, h2]
    rw [h3, List.count_append,
        List.count_eq_zero.mpr (pollLoop_no_finalFetch statuses 0)]
    rfl
  · intro statuses h
    have h2 := pollLoop_terminal_success statuses 0 h
    simp only [runToCompletion, h2]

/-- Witness for c6_single_report_fetch on a concrete success sequence. -/
theorem c6_single_report_fetch_witness :
    (runToCompletion [some "pending", some "success"] none).1.count PollEvent.finalFetch = 1
  ∧ (runToCompletion [some "pending", some "success"] none).2
      = RunResult.failure "Invalid final response: missing report" :=
  ⟨c6_single_report_fetch.1 [some "pending", some "success"] none (by decide),
   c6_single_report_fetch.2 [some "pending", some "success"] (by decide)⟩

/-! TTL sweep lemmas. -/

theorem cleanupOldFiles_cons_old (now : Nat) (e : String × Nat) (rest : List (String × Nat))
    (store : SessionMap) (h : now - e.2 > maxSessionAge) :
    cleanupOldFiles now (e :: rest) store
      = cleanupOldFiles now rest (removeSession store e.1) := by
  simp [cleanupOldFiles, h]

theorem cleanupOldFiles_cons_young (now : Nat) (e : String × Nat) (rest : List (String × Nat))
    (store : SessionMap) (h : ¬(now - e.2 > maxSessionAge)) :
    cleanupOldFiles now (e :: rest) store =
      (e :: (cleanupOldFiles now rest store).1, (cleanupOldFiles now rest store).2) := by
  simp [cleanupOldFiles, h]

theorem cleanup_preserves_none (now : Nat) (fs : List (String × Nat)) :
    ∀ store sid, getSession store sid = none →
      getSession (cleanupOldFiles now fs store).2 sid = none := by
  induction fs with
  | nil => intro store sid h; exact h
  | cons e rest ih =>
    intro store sid h
    by_cases hage : now - e.2 > maxSessionAge
    · rw [cleanupOldFiles_cons_old now e rest store hage]
      refine ih (removeSession store e.1) sid ?_
      by_cases hsk : sid = e.1
      · subst hsk; exact mapGet_delete_same store e.1
      · show mapGet (mapDelete store e.1) sid = none
        rw [mapGet_delete_other store e.1 sid hsk]; exact h
    · rw [cleanupOldFiles_cons_young now e rest store hage]
      exact ih store sid h

theorem cleanup_retained_mem (now : Nat) (fs : List (String × Nat)) :
    ∀ store x, x ∈ (cleanupOldFiles now fs store).1 ↔
      (x ∈ fs ∧ now - x.2 ≤ maxSessionAge) := by
  induction fs with
  | nil => intro store x; simp [cleanupOldFiles]
  | cons e rest ih =>
    intro store x
    by_cases hage : now - e.2 > maxSessionAge
    · rw [cleanupOldFiles_cons_old now e rest store hage, ih (removeSession store e.1) x]
      constructor
      · rintro ⟨hx, hok⟩; exact ⟨List.mem_cons_of_mem e hx, hok⟩
      · rintro ⟨hx, hok⟩
        rcases List.mem_cons.mp hx with hx | hx
        · subst hx; omega
        · exact ⟨hx, hok⟩
    · rw [cleanupOldFiles_cons_young now e rest store hage]
      simp only [List.mem_cons, ih store x]
      constructor
      · rintro (hx | ⟨hx, hok⟩)
        · subst hx; exact ⟨Or.inl rfl, by omega⟩
        · exact ⟨Or.inr hx, hok⟩
      · rintro ⟨hx | hx, hok⟩
        · exact Or.inl hx
        · exact Or.inr ⟨hx, hok⟩

theorem cleanup_store_none (now : Nat) (fs : List (String × Nat)) :
    ∀ store sid mt, (sid, mt) ∈ fs → now - mt > maxSessionAge →
      getSession (cleanupOldFiles now fs store).2 sid = none := by
  induction fs with
  | nil => intro store sid mt h _; cases h
  | cons e rest ih =>
    intro store sid mt hmem hage
    rcases List.mem_cons.mp hmem with he | he
    · cases he
      rw [cleanupOldFiles_cons_old now (sid, mt) rest store hage]
      exact cleanup_preserves_none now rest (removeSession store sid) sid
        (mapGet_delete_same store sid)
    · by_cases hh : now - e.2 > maxSessionAge
      · rw [cleanupOldFiles_cons_old now e rest store hh]
        exact ih (removeSession store e.1) sid mt he hage
      · rw [cleanupOldFiles_cons_young now e rest store hh]
        exact ih store sid mt he hage

theorem cleanup_store_preserved (now : Nat) (fs : List (String × Nat)) :
    ∀ store sid, (∀ mt2, (sid, mt2) ∈ fs → now - mt2 ≤ maxSessionAge) →
      getSession (cleanupOldFiles now fs store).2 sid = getSession store sid := by
  induction fs with
  | nil => intro store sid _; rfl
  | cons e rest ih =>
    intro store sid hall
    by_cases hage : now - e.2 > maxSessionAge
    · have hne : e.1 ≠ sid := by
        intro hq
        have := hall e.2 (by rw [← hq]; exact List.mem_cons_self e rest)
        omega
      rw [cleanupOldFiles_cons_old now e rest store hage]
      rw [ih (removeSession store e.1) sid
        (fun mt2 hm => hall mt2 (List.mem_cons_of_mem e hm))]
      exact mapGet_delete_other store e.1 sid (fun hq => hne hq.symm)
    · rw [cleanupOldFiles_cons_young now e rest store hage]
      exact ih store sid (fun mt2 hm => hall mt2 (List.mem_cons_of_mem e hm))

/-- C9: a sweep at time now with the fixed 15-minute TTL removes exactly the
sessions whose age strictly exceeds the TTL — an evicted session loses both
its directory entry and its registry entry, a retained one keeps its
directory entry, and a session none of whose directory entries are expired
keeps its registry entry untouched. -/
theorem c9_ttl_sweep :
    (∀ now fs store sid mt, ((sid, mt) : String × Nat) ∈ fs → now - mt > maxSessionAge →
       (sid, mt) ∉ (cleanupOldFiles now fs store).1
     ∧ getSession (cleanupOldFiles now fs store).2 sid = none)
  ∧ (∀ now fs store sid mt, ((sid, mt) : String × Nat) ∈ fs → now - mt ≤ maxSessionAge →
       (sid, mt) ∈ (cleanupOldFiles now fs store).1)
  ∧ (∀ now fs store sid, (∀ mt2, ((sid, mt2) : String × Nat) ∈ fs → now - mt2 ≤ maxSessionAge) →
       getSession (cleanupOldFiles now fs store).2 sid = getSession store sid) := by
  refine ⟨?_, ?_, ?_⟩
  · intro now fs store sid mt hmem hage
    constructor
    · intro hmem2
      have := (cleanup_retained_mem now fs store (sid, mt)).mp hmem2
      omega
    · exact cleanup_store_none now fs store sid mt hmem hage
  · intro now fs store sid mt hmem hage
    exact (cleanup_retained_mem now fs store (sid, mt)).mpr ⟨hmem, hage⟩
  · intro now fs store sid hall
    exact cleanup_store_preserved now fs store sid hall

/-- Witness for c9_ttl_sweep: at time 960000 a session 16 minutes old is
evicted from both the directory and the registry, while one 14 minutes old
is retained with its registry entry intact. -/
theorem c9_ttl_sweep_witness :
    ((("A" : String), (0 : Nat)) ∉
        (cleanupOldFiles 960000 [("A", 0), ("B", 120000)] [("A", sampleA), ("B", sampleB)]).1
  ∧ getSession
      (cleanupOldFiles 960000 [("A", 0), ("B", 120000)] [("A", sampleA), ("B", sampleB)]).2
      "A" = none)
  ∧ (("B" : String), (120000 : Nat)) ∈
      (cleanupOldFiles 960000 [("A", 0), ("B", 120000)] [("A", sampleA), ("B", sampleB)]).1
  ∧ getSession
      (cleanupOldFiles 960000 [("A", 0), ("B", 120000)] [("A", sampleA), ("B", sampleB)]).2
      "B" = getSession [("A", sampleA), ("B", sampleB)] "B" := by
  refine ⟨c9_ttl_sweep.1 960000 [("A", 0), ("B", 120000)] [("A", sampleA), ("B", sampleB)]
      "A" 0 (by decide) (by decide),
    c9_ttl_sweep.2.1 960000 [("A", 0), ("B", 120000)] [("A", sampleA), ("B", sampleB)]
      "B" 120000 (by decide) (by decide),
    c9_ttl_sweep.2.2 960000 [("A", 0), ("B", 120000)] [("A", sampleA), ("B", sampleB)]
      "B" ?_⟩
  intro mt2 hmt2
  rcases List.mem_cons.mp hmt2 with h | h
  · have hba : ("B" : String) = "A" := congrArg Prod.fst h
    exact absurd hba (by decide)
  · rcases List.mem_cons.mp h with h | h
    · have hm : mt2 = 120000 := congrArg Prod.snd h
      rw [hm]; decide
    · cases h

/-! The /api/spatialize stage-failure claims. -/

/-- C2 counterexample: when the archive build fails after both artifacts
downloaded, the handler still answers with a success response (both artifact
paths and sizes, no archive) and the archive error is only logged — a third
silently swallowed failure beyond the two the claim allows, and one that is
not surfaced to the caller. -/
theorem c2_swallowed_zip_counterexample :
    apiSpatialize zipFailEnv zipFailStore true =
      (HandlerResponse.ok "job1" (some "s1/binaural_track.mp3") (some "s1/immersive_track.wav")
         (some 111) (some 222) none,
       zipFailStore, ["ZIP creation failed"])
  ∧ (apiSpatialize zipFailEnv zipFailStore true).2.2 ≠ [] :=
  ⟨by decide, by decide⟩

/-- C2 amended: a missing iasUrl is a 400; an empty temp directory and a
spatializeAudio failure surface as a 500 without touching the store and with
nothing swallowed; an archive-build failure after both artifacts downloaded
is caught and logged only — the response still succeeds carrying the artifact
paths and sizes (no rollback of the completed downloads) with no archive, the
store is untouched, and that error joins update-on-absent-id and per-session
sweep failures as a swallowed one. -/
theorem c2_stage_errors :
    (∀ env store, apiSpatialize env store false
       = (HandlerResponse.badRequest "Missing iasUrl parameter", store, []))
  ∧ (∀ env store, latestByMtime env.tempSessions = none →
       apiSpatialize env store true
         = (HandlerResponse.serverError "Spatialization failed", store, []))
  ∧ (∀ env store latest f e, latestByMtime env.tempSessions = some latest →
       env.originalFile = some f → env.spatOutcome = Except.error e →
       apiSpatialize env store true
         = (HandlerResponse.serverError "Spatialization failed", store, []))
  ∧ (∀ env store latest f res bp ip e, latestByMtime env.tempSessions = some latest →
       env.originalFile = some f → env.spatOutcome = Except.ok res →
       res.downloads.binaural = some bp → res.downloads.immersive = some ip →
       env.zipOutcome = Except.error e →
       apiSpatialize env store true =
         (HandlerResponse.ok res.jobId (some bp) (some ip)
            (some env.binauralSize) (some env.immersiveSize) none, store, [e])) := by
  refine ⟨?_, ?_, ?_, ?_⟩
  · intro env store; rfl
  · intro env store hl
    simp [apiSpatialize, hl]
  · intro env store latest f e hl hf hs
    simp [apiSpatialize, hl, hf, hs]
  · intro env store latest f res bp ip e hl hf hs hb hi hz
    simp [apiSpatialize, hl, hf, hs, hb, hi, hz]

/-- Witness for c2_stage_errors on concrete environments. -/
theorem c2_stage_errors_witness :
    apiSpatialize zipFailEnv zipFailStore false
      = (HandlerResponse.badRequest "Missing iasUrl parameter", zipFailStore, [])
  ∧ apiSpatialize
      { zipFailEnv with spatOutcome := Except.error "boom" } zipFailStore true
      = (HandlerResponse.serverError "Spatialization failed", zipFailStore, [])
  ∧ apiSpatialize
      { zipFailEnv with tempSessions := [] } zipFailStore true
      = (HandlerResponse.serverError "Spatialization failed", zipFailStore, []) := by
  refine ⟨c2_stage_errors.1 zipFailEnv zipFailStore, ?_, ?_⟩
  · exact c2_stage_errors.2.2.1 { zipFailEnv with spatOutcome := Except.error "boom" }
      zipFailStore ("s1", 10) "original_track.wav" "boom" rfl rfl rfl
  · exact c2_stage_errors.2.1 { zipFailEnv with tempSessions := [] } zipFailStore rfl

/-- C3: with the archive build succeeding, the handler records an archive
(zipSize on the response, zipPath/zipSize merged into the latest session)
exactly when both the binaural and the immersive artifact were produced; when
they were not both produced the store is untouched; and a success report
carrying only a binauralFile downloads only the binaural artifact and yields
a success response with the binaural path set, no immersive path and no
archive, leaving the registry unchanged. -/
theorem c3_archive_only_both :
    (∀ env store latest f res zp zs, latestByMtime env.tempSessions = some latest →
       env.originalFile = some f → env.spatOutcome = Except.ok res →
       env.zipOutcome = Except.ok (zp, zs) →
       ((responseZipSize (apiSpatialize env store true).1).isSome ↔
          (res.downloads.binaural.isSome ∧ res.downloads.immersive.isSome))
     ∧ (∀ bp ip, res.downloads.binaural = some bp → res.downloads.immersive = some ip →
          (apiSpatialize env store true).2.1 =
            updateSession store latest.1 { zipPath := some zp, zipSize := some zs })
     ∧ (res.downloads.binaural = none ∨ res.downloads.immersive = none →
          (apiSpatialize env store true).2.1 = store))
  ∧ (∀ fid binPath immPath,
       computeDownloads { binauralFile := some fid } binPath immPath =
         { binaural := some binPath, immersive := none })
  ∧ (∀ env store latest f res bp, latestByMtime env.tempSessions = some latest →
       env.originalFile = some f → env.spatOutcome = Except.ok res →
       res.downloads = { binaural := some bp, immersive := none } →
       apiSpatialize env store true =
         (HandlerResponse.ok res.jobId (some bp) none none none none, store, [])) := by
  refine ⟨?_, ?_, ?_⟩
  · intro env store latest f res zp zs hl hf hs hz
    refine ⟨?_, ?_, ?_⟩
    · cases hb : res.downloads.binaural with
      | none =>
        cases hi : res.downloads.immersive with
        | none => simp [apiSpatialize, hl, hf, hs, hb, hi, responseZipSize]
        | some ip => simp [apiSpatialize, hl, hf, hs, hb, hi, responseZipSize]
      | some bp =>
        cases hi : res.downloads.immersive with
        | none => simp [apiSpatialize, hl, hf, hs, hb, hi, responseZipSize]
        | some ip => simp [apiSpatialize, hl, hf, hs, hb, hi, hz, responseZipSize]
    · intro bp ip hb hi
      simp [apiSpatialize, hl, hf, hs, hb, hi, hz]
    · intro hni
      rcases hni with hb | hi
      · cases hi : res.downloads.immersive with
        | none => simp [apiSpatialize, hl, hf, hs, hb, hi]
        | some ip => simp [apiSpatialize, hl, hf, hs, hb, hi]
      · cases hb : res.downloads.binaural with
        | none => simp [apiSpatialize, hl, hf, hs, hb, hi]
        | some bp => simp [apiSpatialize, hl, hf, hs, hb, hi]
  · intro fid binPath immPath; rfl
  · intro env store latest f res bp hl hf hs hd
    have hb : res.downloads.binaural = some bp := by rw [hd]
    have hi : res.downloads.immersive = none := by rw [hd]
    simp [apiSpatialize, hl, hf, hs, hb, hi]

/-- Witness for c3_archive_only_both: with both artifacts the archive is
recorded on the session; with only the binaural artifact the response has the
binaural path, no immersive path, no archive, and the registry is unchanged. -/
theorem c3_archive_only_both_witness :
    (apiSpatialize bothEnv [("s1", sampleA)] true).2.1 =
      updateSession [("s1", sampleA)] "s1"
        { zipPath := some "s1/out.zip", zipSize := some 42 }
  ∧ computeDownloads { binauralFile := some "id1" } "p" "q" =
      { binaural := some "p", immersive := none }
  ∧ apiSpatialize binOnlyEnv [("s1", sampleA)] true =
      (HandlerResponse.ok "j" (some "b") none none none none, [("s1", sampleA)], []) := by
  refine ⟨?_, ?_, ?_⟩
  · exact (c3_archive_only_both.1 bothEnv [("s1", sampleA)] ("s1", 10) "original_track.wav"
      { jobId := "j", downloads := { binaural := some "b", immersive := some "i" } }
      "s1/out.zip" 42 rfl rfl rfl rfl).2.1 "b" "i" rfl rfl
  · exact c3_archive_only_both.2.1 "id1" "p" "q"
  · exact c3_archive_only_both.2.2 binOnlyEnv [("s1", sampleA)] ("s1", 10) "original_track.wav"
      { jobId := "j", downloads := { binaural := some "b", immersive := none } }
      "b" rfl rfl rfl rfl

end StereoToSpatial
